import Mathlib

/-!
Verification of the Serial-Gui core against its source (src/App.py).

Strings are modelled as lists of characters.  The components embedded here:
the line framer of SerialReaderThread.run, the response matching of
MainWindow._wait_for_response, the macro step interpreter
MainWindow._execute_macro_steps (as an event-trace semantics parameterised
by an oracle supplying the results of human interaction and of the wait),
the guard of MainWindow.execute_macro, and the session-buffer tail of
MainWindow.handle_serial_data.
-/

namespace SerialGui

/-- The character class removed by Python str.strip (ASCII whitespace). -/
def isPySpace (c : Char) : Bool :=
  c = ' ' || c = '\t' || c = '\n' || c = '\r' || c = '\x0b' || c = '\x0c'

/-- Python s.strip(): drop leading and trailing whitespace. -/
def pyStrip (s : List Char) : List Char :=
  ((s.dropWhile isPySpace).reverse.dropWhile isPySpace).reverse

/-- The pattern occurs at the very start of the string. -/
def hasLead : List Char → List Char → Bool
  | [], _ => true
  | _ :: _, [] => false
  | p :: ps, c :: cs => p = c && hasLead ps cs

/-- Python s.find(pat): index of the first occurrence, none when absent. -/
def strFind (pat : List Char) : List Char → Option Nat
  | [] => if hasLead pat [] then some 0 else none
  | c :: t => if hasLead pat (c :: t) then some 0 else (strFind pat t).map (· + 1)

/-- Python `pat in s` for strings: some occurrence exists. -/
def containsSub (s pat : List Char) : Bool :=
  (strFind pat s).isSome

/-- One iteration of the delimiter-choosing for-loop in SerialReaderThread.run:
a delimiter found strictly earlier than the best so far replaces the pair
(newline_pos, line_ending). -/
def updateDelim (buf : List Char) (acc : Nat × List Char) (delim : List Char) :
    Nat × List Char :=
  match strFind delim buf with
  | some p => if p < acc.1 then (p, delim) else acc
  | none => acc

/-- The for-loop over the delimiters CR-LF, LF, CR, starting from the pair
(len(buffer), LF), exactly as in SerialReaderThread.run. -/
def findLineEnding (buf : List Char) : Nat × List Char :=
  updateDelim buf
    (updateDelim buf (updateDelim buf (buf.length, ['\n']) ['\r', '\n']) ['\n'])
    ['\r']

/-- The inner while-loop of SerialReaderThread.run.  Each iteration removes at
least one character from the buffer (the chosen line ending is non-empty and
its position is inside the buffer whenever the loop condition holds), so a
fuel equal to the buffer length lets the fueled loop agree with the unbounded
source loop: when the fuel is exhausted the buffer is already empty and the
loop condition is false.  The source emits line + line_ending with CR-LF and
CR rewritten to LF, hence every emitted line ends in a single LF. -/
def framerLoopFuel : Nat → List Char → List (List Char) × List Char
  | 0, buf => ([], buf)
  | fuel + 1, buf =>
    if '\n' ∈ buf ∨ '\r' ∈ buf then
      let pe := findLineEnding buf
      if pe.1 < buf.length then
        let out := framerLoopFuel fuel (buf.drop (pe.1 + pe.2.length))
        ((buf.take pe.1 ++ ['\n']) :: out.1, out.2)
      else ([], buf)
    else ([], buf)

/-- The line-splitting loop run on a buffer, returning the emitted lines and
the remaining (incomplete) buffer. -/
def framerLoop (buf : List Char) : List (List Char) × List Char :=
  framerLoopFuel buf.length buf

/-- Feeding one decoded chunk to the reader thread: the chunk is appended to
the persistent buffer and the line-splitting loop runs. -/
def feedChunk (st chunk : List Char) : List (List Char) × List Char :=
  framerLoop (st ++ chunk)

/-- Feeding a sequence of chunks in order, starting from a given buffer,
collecting all emitted lines in emission order. -/
def feedChunks : List Char → List (List Char) → List (List Char) × List Char
  | st, [] => ([], st)
  | st, c :: cs =>
    let o1 := feedChunk st c
    let o2 := feedChunks o1.2 cs
    (o1.1 ++ o2.1, o2.2)

/-- The per-line match test of MainWindow._wait_for_response: the expected
text and the buffered line are both stripped, then compared either by
substring containment or by exact equality. -/
def lineMatches (substringMatch : Bool) (expected line : List Char) : Bool :=
  if substringMatch then containsSub (pyStrip line) (pyStrip expected)
  else pyStrip expected == pyStrip line

/-- One scan of the macro session buffer inside _wait_for_response: does any
buffered line match. -/
def scanBuffer (substringMatch : Bool) (expected : List Char)
    (buf : List (List Char)) : Bool :=
  buf.any (fun line => lineMatches substringMatch expected line)

/-- MainWindow._wait_for_response: one scan of the buffer as it is at call
time, then the timeout-bounded polling loop, modelled by the finite list of
buffer snapshots the loop observes before the deadline elapses (the empty
list models a timeout that admits no polling iteration). -/
def wait_for_response (substringMatch : Bool) (expected : List Char)
    (buf : List (List Char)) (polled : List (List (List Char))) : Bool :=
  if scanBuffer substringMatch expected buf then true
  else polled.any (fun b => scanBuffer substringMatch expected b)

/-- The value a step's 'success' or 'fail' key holds, as discriminated by the
elif-chain of the output branch of _execute_macro_steps.  noAction stands for
an absent key and for any value matching none of the recognised arms (for
example the string Continue, which has no branch in the source). -/
inductive MacroAction where
  | ignore
  | exitRun
  | dialog
  | dialogWaitAct
  | send (cmd : List Char)
  | noAction
deriving DecidableEq

/-- One macro step, as discriminated by the key tests of
_execute_macro_steps.  unknown stands for a step dict containing none of the
recognised keys. -/
inductive Step where
  | input (cmd : List Char)
  | delay (ms : Nat)
  | dialogWait (message : List Char)
  | output (expected : List Char) (timeoutMs : Nat) (substringMatch : Bool)
      (failAct succAct : MacroAction)
  | menuMulti (commands : List (List Char))
  | menuSingle (commands : List (List Char))
  | unknown
deriving DecidableEq

/-- Observable actions of the macro run, in program order: session-buffer
clears, the activity flag, the set-text/send-command signal pair, sleeps,
gateway round-trips, the wait for a response, and the per-step error
transcript line of the except handler. -/
inductive MEvent where
  | activate
  | clear
  | setInput (cmd : List Char)
  | sendCmd
  | sleepMs (ms : Nat)
  | dialogShow
  | inputDialogShow
  | menuShow (multi : Bool) (commands : List (List Char))
  | waitFor (expected : List Char) (timeoutMs : Nat) (substringMatch : Bool)
  | errorNote (stepIdx : Nat)
  | deactivate
deriving DecidableEq

/-- How a run can return before the end of the step list. -/
inductive StopReason where
  | userEnded
  | exitOnFail
  | exitOnSuccess
  | errored
deriving DecidableEq

/-- Terminal state of one run. -/
inductive RunOutcome where
  | completed
  | halted (stepIdx : Nat) (r : StopReason)
deriving DecidableEq

/-- The results of everything a step consults outside the interpreter: whether
the step body raises, the outcome of _wait_for_response, the continue/end
dialog choice, the free-text dialog result, the single-menu selection, and
the multi-menu clicks in click order.  Modelled from the spec: the MenuDialog
class (imported from MacroEditor but absent from the source tree) invokes the
on_command_execute callback once per clicked command, in click order, and
delivers one completion signal. -/
structure StepOracle where
  raises : Bool
  waitResult : Bool
  dialogChoice : Bool
  userCommand : Option (List Char)
  menuChoice : Option (List Char)
  menuClicks : List (List Char)

/-- The trace of _send_macro_command_direct for each clicked command of a
multi menu: set the input text, then trigger send_command, one pair per
click.  No session-buffer clear occurs on this path. -/
def directSends : List (List Char) → List MEvent
  | [] => []
  | c :: cs => MEvent.setInput c :: MEvent.sendCmd :: directSends cs

/-- The elif-chain handling the 'fail' or 'success' action of an output step.
Returns the emitted events and the stop reason when the branch returns from
the run (EXIT, or End chosen in a DIALOG_WAIT).  The exitReason argument
distinguishes the EXIT arm of the fail chain from that of the success
chain. -/
def execAction (o : StepOracle) (a : MacroAction) (exitReason : StopReason) :
    List MEvent × Option StopReason :=
  match a with
  | .ignore => ([], none)
  | .exitRun => ([.deactivate, .clear], some exitReason)
  | .dialog =>
    match o.userCommand with
    | some c => ([.inputDialogShow, .setInput c, .sendCmd], none)
    | none => ([.inputDialogShow], none)
  | .dialogWaitAct =>
    if o.dialogChoice then ([.dialogShow], none)
    else ([.dialogShow, .deactivate, .clear], some .userEnded)
  | .send c => ([.setInput c, .sendCmd], none)
  | .noAction => ([], none)

/-- One step of _execute_macro_steps: the events it emits and the stop reason
when it returns from the run.  A raising step is taken over by the except
handler: error transcript line naming the step index, deactivation, buffer
clear, return.  The step bodies mirror the source branch for each key. -/
def execStep (i : Nat) (s : Step) (o : StepOracle) :
    List MEvent × Option StopReason :=
  if o.raises then ([.errorNote i, .deactivate, .clear], some .errored)
  else
    match s with
    | .input cmd => ([.clear, .setInput cmd, .sendCmd], none)
    | .delay ms => ([.clear, .sleepMs ms], none)
    | .dialogWait _ =>
      if o.dialogChoice then ([.clear, .dialogShow], none)
      else ([.clear, .dialogShow, .deactivate, .clear], some .userEnded)
    | .output e t sub fa sa =>
      let act := if o.waitResult then execAction o sa .exitOnSuccess
        else execAction o fa .exitOnFail
      (MEvent.waitFor e t sub :: act.1, act.2)
    | .menuMulti cmds =>
      if cmds = [] then ([], none)
      else (MEvent.menuShow true cmds :: directSends o.menuClicks, none)
    | .menuSingle cmds =>
      if cmds = [] then ([], none)
      else
        match o.menuChoice with
        | some c => ([MEvent.menuShow false cmds, .clear, .setInput c, .sendCmd], none)
        | none => ([MEvent.menuShow false cmds], none)
    | .unknown => ([], none)

/-- The step loop of _execute_macro_steps, numbering steps from i as the
source enumerates from 1, followed by the end-of-list epilogue that
deactivates the session and clears the buffer. -/
def runSteps (oracle : Nat → StepOracle) : Nat → List Step → List MEvent × RunOutcome
  | _, [] => ([.deactivate, .clear], .completed)
  | i, s :: rest =>
    let r := execStep i s (oracle i)
    match r.2 with
    | some reason => (r.1, .halted i reason)
    | none =>
      let r2 := runSteps oracle (i + 1) rest
      (r.1 ++ r2.1, r2.2)

/-- A whole run of _execute_macro_steps: activate the session and clear the
buffer, then execute the steps in order. -/
def runMacro (oracle : Nat → StepOracle) (steps : List Step) :
    List MEvent × RunOutcome :=
  let r := runSteps oracle 1 steps
  (MEvent.activate :: MEvent.clear :: r.1, r.2)

/-- The value of macro_session_active after a trace of events, given its value
before. -/
def finalActive (tr : List MEvent) (b : Bool) : Bool :=
  tr.foldl
    (fun acc e =>
      match e with
      | MEvent.activate => true
      | MEvent.deactivate => false
      | _ => acc)
    b

/-- Every occurrence of a session-buffer clear in the trace comes immediately
after a deactivation of the run. -/
def clearOnlyAfterDeactivate : List MEvent → Bool
  | [] => true
  | MEvent.deactivate :: MEvent.clear :: tr => clearOnlyAfterDeactivate tr
  | MEvent.clear :: _ => false
  | _ :: tr => clearOnlyAfterDeactivate tr

/-- The checks MainWindow.execute_macro performs before spawning the worker
thread: a serial port attribute that is truthy, and a non-empty step list
from the loaded file.  The source never consults macro_session_active
here. -/
structure AppGuard where
  connected : Bool
  macroSessionActive : Bool

/-- Whether execute_macro reaches the point where it starts the worker thread
running _execute_macro_steps. -/
def execute_macro_starts (g : AppGuard) (steps : List Step) : Bool :=
  g.connected && !steps.isEmpty

/-- Python data.split with separator LF: empty pieces are kept, and the empty
string splits to one empty piece. -/
def splitNL : List Char → List (List Char)
  | [] => [[]]
  | c :: rest =>
    if c = '\n' then [] :: splitNL rest
    else
      match splitNL rest with
      | [] => [[c]]
      | p :: ps => (c :: p) :: ps

/-- The session-buffer tail of MainWindow.handle_serial_data: when a macro run
is active, the raw data is split on LF and every piece with non-empty strip
is appended to the macro session buffer.  The display-filter settings are
taken as arguments to record that this path never consults them: the source
reads filter_empty and custom_line_filter only for the display. -/
def handle_serial_data_session (filterEmpty : Bool) (customFilter : List Char)
    (active : Bool) (buf : List (List Char)) (data : List Char) :
    List (List Char) :=
  if active then
    buf ++ (splitNL data).filter (fun l => !(pyStrip l).isEmpty)
  else buf

theorem hasLead_iff : ∀ pat s : List Char, hasLead pat s = true ↔ pat <+: s
  | [], s => by simp [hasLead]
  | p :: ps, [] => by simp [hasLead]
  | p :: ps, c :: cs => by
    rw [List.cons_prefix_cons]
    simp only [hasLead, Bool.and_eq_true, decide_eq_true_eq]
    rw [hasLead_iff ps cs]

theorem strFind_isSome_iff :
    ∀ s pat : List Char, (strFind pat s).isSome = true ↔ pat <:+: s
  | [], pat => by
    by_cases h : hasLead pat [] = true
    · have : pat = [] := List.prefix_nil.mp ((hasLead_iff pat []).mp h)
      subst this
      simp [strFind, hasLead]
    · have hne : pat ≠ [] := by
        intro hh
        subst hh
        exact h (by simp [hasLead])
      simp [strFind, h, List.infix_nil, hne]
  | c :: t, pat => by
    rw [List.infix_cons_iff, ← hasLead_iff pat (c :: t),
      ← strFind_isSome_iff t pat]
    by_cases h : hasLead pat (c :: t) = true
    · simp [strFind, h]
    · simp [strFind, h]

theorem containsSub_iff (s pat : List Char) :
    containsSub s pat = true ↔ pat <:+: s := by
  simp [containsSub, strFind_isSome_iff]

/-- C1: chunk-split invariance of the line framer fails.  The stream
a CR LF b LF delivered as the two chunks (a CR) and (LF b LF) emits the
lines a, empty, b, while the same stream in one chunk emits a, b: the
trailing CR of the first chunk is consumed at once as a bare-CR delimiter
instead of being buffered to join the LF that opens the next chunk. -/
theorem framer_chunk_split_dependence :
    (feedChunks [] [['a', '\r'], ['\n', 'b', '\n']]).1 =
        [['a', '\n'], ['\n'], ['b', '\n']] ∧
      (feedChunks [] [['a', '\r', '\n', 'b', '\n']]).1 =
        [['a', '\n'], ['b', '\n']] ∧
      (feedChunks [] [['a', '\r'], ['\n', 'b', '\n']]).1 ≠
        (feedChunks [] [['a', '\r', '\n', 'b', '\n']]).1 := by
  refine ⟨by decide, by decide, by decide⟩

/-- C2: MainWindow.execute_macro starts a second run even while one is
active.  Its guard checks only the serial connection and a non-empty step
list; with macro_session_active true it still reaches the thread start, so
a second run is not rejected. -/
theorem execute_macro_ignores_active :
    execute_macro_starts { connected := true, macroSessionActive := true }
      [Step.input ['A', 'T']] = true := rfl

/-- C5: _wait_for_response returns true from its initial scan when a matching
line is already in the session buffer at call time: the result is true for
every list of polled snapshots, including the empty one, so no polling
iteration is needed. -/
theorem wait_for_immediate (sub : Bool) (e : List Char)
    (buf : List (List Char)) (polled : List (List (List Char)))
    (h : scanBuffer sub e buf = true) :
    wait_for_response sub e buf polled = true ∧
      wait_for_response sub e buf [] = true := by
  constructor <;> simp [wait_for_response, h]

/-- Witness for wait_for_immediate at a concrete buffer that already
contains the expected line. -/
theorem wait_for_immediate_witness :
    wait_for_response true ['O', 'K'] [['O', 'K']] [] = true ∧
      wait_for_response true ['O', 'K'] [['O', 'K']] [[]] = true := by
  have h := wait_for_immediate true ['O', 'K'] [['O', 'K']] [[]] (by decide)
  exact ⟨h.2, h.1⟩

/-- C6: the match rule of _wait_for_response.  Both texts are stripped; in
substring mode a line matches exactly when the stripped expected text occurs
inside the stripped line, in exact mode exactly when the stripped line
equals the stripped expected text; in particular expected OK does not match
the received line consisting of OK extra with surrounding spaces in exact
mode. -/
theorem wait_for_match_rule (e l : List Char) :
    (lineMatches true e l = true ↔ pyStrip e <:+: pyStrip l) ∧
      (lineMatches false e l = true ↔ pyStrip l = pyStrip e) ∧
      lineMatches false ['O', 'K']
        [' ', ' ', 'O', 'K', ' ', 'e', 'x', 't', 'r', 'a', ' ', ' '] = false := by
  refine ⟨?_, ?_, by decide⟩
  · exact containsSub_iff (pyStrip l) (pyStrip e)
  · simp only [lineMatches, Bool.false_eq_true, if_false, beq_iff_eq]
    exact eq_comm

/-- An oracle for a run whose wait succeeds and whose dialogs continue. -/
def oHit : StepOracle :=
  { raises := false, waitResult := true, dialogChoice := true,
    userCommand := none, menuChoice := none, menuClicks := [] }

/-- An oracle for a run whose wait times out. -/
def oMiss : StepOracle :=
  { raises := false, waitResult := false, dialogChoice := true,
    userCommand := none, menuChoice := none, menuClicks := [] }

/-- An oracle for a step whose body raises. -/
def oBoom : StepOracle :=
  { raises := true, waitResult := false, dialogChoice := true,
    userCommand := none, menuChoice := none, menuClicks := [] }

/-- An oracle for a multi menu on which the user clicks a then b. -/
def oClicks : StepOracle :=
  { raises := false, waitResult := false, dialogChoice := true,
    userCommand := none, menuChoice := none, menuClicks := [['a'], ['b']] }

/-- C3 fails as stated: a multi menu with three commands and two clicks sends
exactly twice but never clears the session buffer, because the callback path
of _send_macro_command_direct only sets the input text and triggers
send_command. -/
theorem menu_multi_no_clear :
    ((execStep 1 (Step.menuMulti [['a'], ['b'], ['c']]) oClicks).1.count
        MEvent.sendCmd = 2) ∧
      ((execStep 1 (Step.menuMulti [['a'], ['b'], ['c']]) oClicks).1.count
        MEvent.clear = 0) := by
  decide

/-- C3 amended: during a multi-menu step every clicked command is sent exactly
once, in click order, through the set-input/send_command path, but no
session-buffer clear precedes any of these sends. -/
theorem menu_multi_send_discipline (i : Nat) (cmds : List (List Char))
    (o : StepOracle) (h : o.raises = false) (hc : cmds ≠ []) :
    execStep i (Step.menuMulti cmds) o =
        (MEvent.menuShow true cmds :: directSends o.menuClicks, none) ∧
      (directSends o.menuClicks).count MEvent.sendCmd = o.menuClicks.length ∧
      MEvent.clear ∉ directSends o.menuClicks := by
  refine ⟨by simp [execStep, h, hc], ?_, ?_⟩
  · induction o.menuClicks with
    | nil => simp [directSends]
    | cons c cs ih => simp [directSends, List.count_cons, ih]
  · induction o.menuClicks with
    | nil => simp [directSends]
    | cons c cs ih => simp [directSends, ih]

/-- Witness for menu_multi_send_discipline on the three-command menu with two
clicks. -/
theorem menu_multi_send_discipline_witness :
    (execStep 1 (Step.menuMulti [['a'], ['b'], ['c']]) oClicks =
        (MEvent.menuShow true [['a'], ['b'], ['c']] ::
          directSends oClicks.menuClicks, none)) ∧
      (directSends oClicks.menuClicks).count MEvent.sendCmd =
        oClicks.menuClicks.length ∧
      MEvent.clear ∉ directSends oClicks.menuClicks :=
  menu_multi_send_discipline 1 [['a'], ['b'], ['c']] oClicks rfl (by decide)

/-- C4 fails as stated: an output step whose fail action is EXIT does clear
the session buffer, as part of deactivating the run on the early return. -/
theorem output_step_clears_on_exit :
    MEvent.clear ∈
      (execStep 2
        (Step.output ['O', 'K'] 500 true MacroAction.exitRun
          MacroAction.noAction)
        oMiss).1 := by
  decide

theorem clearOnlyAfterDeactivate_execAction (o : StepOracle) (a : MacroAction)
    (r : StopReason) :
    clearOnlyAfterDeactivate (execAction o a r).1 = true := by
  cases a <;> cases hu : o.userCommand <;> cases hd : o.dialogChoice <;>
    simp [execAction, clearOnlyAfterDeactivate, hu, hd]

/-- C4 amended: Send, Delay and DialogWait steps clear the session buffer as
their first action, before their outbound action; an ExpectOutput step
performs no clear before its wait (its trace starts with the wait), and the
only clears it ever performs come immediately after deactivating the run in
the terminal paths of its fail or success action. -/
theorem step_buffer_clear_discipline (i : Nat) (o : StepOracle)
    (h : o.raises = false) (cmd m e : List Char) (ms t : Nat) (sub : Bool)
    (fa sa : MacroAction) :
    (execStep i (Step.input cmd) o).1 =
        [MEvent.clear, MEvent.setInput cmd, MEvent.sendCmd] ∧
      (execStep i (Step.delay ms) o).1 = [MEvent.clear, MEvent.sleepMs ms] ∧
      (execStep i (Step.dialogWait m) o).1.take 2 =
        [MEvent.clear, MEvent.dialogShow] ∧
      (execStep i (Step.output e t sub fa sa) o).1.head? =
        some (MEvent.waitFor e t sub) ∧
      clearOnlyAfterDeactivate (execStep i (Step.output e t sub fa sa) o).1 =
        true := by
  refine ⟨by simp [execStep, h], by simp [execStep, h], ?_, ?_, ?_⟩
  · cases hd : o.dialogChoice <;> simp [execStep, h, hd]
  · cases hw : o.waitResult <;> simp [execStep, h, hw]
  · cases hw : o.waitResult <;>
      simp [execStep, h, hw, clearOnlyAfterDeactivate,
        clearOnlyAfterDeactivate_execAction]

/-- Witness for step_buffer_clear_discipline at concrete arguments. -/
theorem step_buffer_clear_discipline_witness :
    (execStep 1 (Step.input ['A']) oMiss).1 =
        [MEvent.clear, MEvent.setInput ['A'], MEvent.sendCmd] ∧
      clearOnlyAfterDeactivate
        (execStep 1
          (Step.output ['O', 'K'] 500 true MacroAction.exitRun
            MacroAction.noAction)
          oMiss).1 = true :=
  ⟨(step_buffer_clear_discipline 1 oMiss rfl ['A'] [] ['O', 'K'] 7 500 true
      MacroAction.exitRun MacroAction.noAction).1,
    (step_buffer_clear_discipline 1 oMiss rfl ['A'] [] ['O', 'K'] 7 500 true
      MacroAction.exitRun MacroAction.noAction).2.2.2.2⟩

/-- The two-step macro of the C7 scenario: send AT, then expect OK with a
500ms timeout, substring matching, fail action EXIT and no success action. -/
def macroAT : List Step :=
  [Step.input ['A', 'T'],
    Step.output ['O', 'K'] 500 true MacroAction.exitRun MacroAction.noAction]

/-- C7: for the macro send AT then expect OK with fail action EXIT, a run
whose wait succeeds reaches the completed outcome with the session inactive,
and a run whose wait times out halts at step 2 with the exit-on-fail outcome,
the session inactive, and executes nothing of any later steps: appending any
suffix leaves the whole run unchanged. -/
theorem expect_output_exit_semantics (oracle : Nat → StepOracle)
    (rest : List Step) (h1 : (oracle 1).raises = false)
    (h2 : (oracle 2).raises = false) :
    ((oracle 2).waitResult = true →
      (runMacro oracle macroAT).2 = RunOutcome.completed ∧
        finalActive (runMacro oracle macroAT).1 false = false) ∧
    ((oracle 2).waitResult = false →
      runMacro oracle (macroAT ++ rest) = runMacro oracle macroAT ∧
        (runMacro oracle macroAT).2 =
          RunOutcome.halted 2 StopReason.exitOnFail ∧
        finalActive (runMacro oracle macroAT).1 false = false) := by
  constructor
  · intro hw
    simp [runMacro, macroAT, runSteps, execStep, execAction, h1, h2, hw,
      finalActive]
  · intro hw
    simp [runMacro, macroAT, runSteps, execStep, execAction, h1, h2, hw,
      finalActive]

/-- Witness for expect_output_exit_semantics: the timed-out run of the AT
macro, with one extra step appended, halts at step 2 untouched by the
suffix. -/
theorem expect_output_exit_semantics_witness :
    runMacro (fun _ => oMiss) (macroAT ++ [Step.input ['X']]) =
        runMacro (fun _ => oMiss) macroAT ∧
      (runMacro (fun _ => oMiss) macroAT).2 =
        RunOutcome.halted 2 StopReason.exitOnFail ∧
      finalActive (runMacro (fun _ => oMiss) macroAT).1 false = false :=
  (expect_output_exit_semantics (fun _ => oMiss) [Step.input ['X']] rfl
    rfl).2 rfl

/-- C8: a step whose body raises is taken over by the except handler: the run
emits the error transcript line naming the step index, deactivates the
session, clears the buffer and returns, executing none of the later steps
and crashing nothing. -/
theorem step_exception_containment (oracle : Nat → StepOracle) (i : Nat)
    (s : Step) (rest : List Step) (h : (oracle i).raises = true) :
    runSteps oracle i (s :: rest) =
      ([MEvent.errorNote i, MEvent.deactivate, MEvent.clear],
        RunOutcome.halted i StopReason.errored) := by
  simp [runSteps, execStep, h]

/-- Witness for step_exception_containment at a concrete raising step. -/
theorem step_exception_containment_witness :
    runSteps (fun _ => oBoom) 1 [Step.input ['A'], Step.delay 5] =
      ([MEvent.errorNote 1, MEvent.deactivate, MEvent.clear],
        RunOutcome.halted 1 StopReason.errored) :=
  step_exception_containment (fun _ => oBoom) 1 (Step.input ['A'])
    [Step.delay 5] rfl

/-- C10: a step with none of the recognised keys is a silent no-op and the
run proceeds to the next step unchanged; likewise an output step whose fail
and success values match none of the recognised action arms emits nothing
beyond the wait itself and proceeds. -/
theorem unrecognized_tags_noop (oracle : Nat → StepOracle) (i : Nat)
    (rest : List Step) (e : List Char) (t : Nat) (sub : Bool)
    (h : (oracle i).raises = false) :
    runSteps oracle i (Step.unknown :: rest) = runSteps oracle (i + 1) rest ∧
      execStep i
          (Step.output e t sub MacroAction.noAction MacroAction.noAction)
          (oracle i) =
        ([MEvent.waitFor e t sub], none) := by
  constructor
  · simp [runSteps, execStep, h]
  · cases hw : (oracle i).waitResult <;> simp [execStep, execAction, h, hw]

/-- Witness for unrecognized_tags_noop at a concrete unknown step. -/
theorem unrecognized_tags_noop_witness :
    (runSteps (fun _ => oHit) 1 [Step.unknown, Step.delay 5] =
        runSteps (fun _ => oHit) 2 [Step.delay 5]) ∧
      execStep 1
          (Step.output ['O', 'K'] 500 true MacroAction.noAction
            MacroAction.noAction)
          oHit =
        ([MEvent.waitFor ['O', 'K'] 500 true], none) :=
  unrecognized_tags_noop (fun _ => oHit) 1 [Step.delay 5] ['O', 'K'] 500 true
    rfl

/-- C9: handle_serial_data appends to the session buffer only lines whose
strip is non-empty, and only while a run is active; the result never depends
on the display-filter settings; consequently an exact-mode scan for an
expected text whose strip is empty can never succeed on such a buffer. -/
theorem session_buffer_no_blank_lines (f1 f2 : Bool) (c1 c2 : List Char)
    (active : Bool) (buf : List (List Char)) (data e : List Char)
    (hbuf : ∀ l ∈ buf, pyStrip l ≠ [])
    (he : pyStrip e = []) :
    (∀ l ∈ handle_serial_data_session f1 c1 active buf data, pyStrip l ≠ []) ∧
      handle_serial_data_session f1 c1 active buf data =
        handle_serial_data_session f2 c2 active buf data ∧
      (active = false → handle_serial_data_session f1 c1 active buf data = buf) ∧
      scanBuffer false e (handle_serial_data_session f1 c1 active buf data) =
        false := by
  have hscan : ∀ B : List (List Char), (∀ l ∈ B, pyStrip l ≠ []) →
      scanBuffer false e B = false := by
    intro B hB
    simp only [scanBuffer, List.any_eq_false]
    intro l hl
    simp only [lineMatches, Bool.false_eq_true, if_false, beq_iff_eq, he]
    exact fun hh => hB l hl hh.symm
  have hmem : ∀ l ∈ handle_serial_data_session f1 c1 active buf data,
      pyStrip l ≠ [] := by
    cases active with
    | false => exact hbuf
    | true =>
      intro l hl
      simp only [handle_serial_data_session, if_true] at hl
      rcases List.mem_append.mp hl with hb | hf
      · exact hbuf l hb
      · have := (List.mem_filter.mp hf).2
        simpa [List.isEmpty_iff] using this
  refine ⟨hmem, rfl, ?_, hscan _ hmem⟩
  intro ha
  simp [handle_serial_data_session, ha]

/-- Witness for session_buffer_no_blank_lines on a data chunk with a blank
line and a blank expected text. -/
theorem session_buffer_no_blank_lines_witness :
    scanBuffer false [' ', ' ']
      (handle_serial_data_session true [] true [] ['a', '\n', '\n', 'b']) =
      false :=
  (session_buffer_no_blank_lines true false [] ['x'] true []
    ['a', '\n', '\n', 'b'] [' ', ' '] (by simp) (by decide)).2.2.2

end SerialGui
